import Mathlib

/-!
Verification development for `youtube_subtitle_analyzer.py`.

The Python source is shallowly embedded: the external collaborators
(`yt_dlp.extract_info`, the subtitle download into a temporary directory,
`requests.get`) are modelled as an `Env` record of call results, mutable
string accumulation becomes explicit state threading, and Python exceptions
become `Except String` values.  `json.loads` is modelled by a fuel-based
recursive-descent JSON parser over `List Char`; Python dynamic-typing errors
(`TypeError` / `AttributeError` raised by the event/segment walk) are modelled
by `Except` results carrying the partially accumulated text, because the
source swallows them in one branch (keeping the partial accumulator) and
propagates them in the others.
-/

/-- A parsed JSON value, as produced by `json.loads`.  Numbers keep their
lexeme: the analyzer never computes with them, it only distinguishes strings
from non-strings. -/
inductive Json where
  | null
  | bool (b : Bool)
  | num (lit : String)
  | str (s : String)
  | arr (elems : List Json)
  | obj (members : List (String × Json))

/-- The object-opening character, written numerically. -/
def braceOpen : Char := Char.ofNat 123

/-- The object-closing character, written numerically. -/
def braceClose : Char := Char.ofNat 125

/-- The double-quote character. -/
def dquote : Char := Char.ofNat 34

/-- The backslash character. -/
def bslash : Char := Char.ofNat 92

/-- JSON whitespace: exactly space, tab, line feed, carriage return
(the set accepted between tokens by Python's `json.loads`). -/
def isJsonWs (c : Char) : Bool :=
  c = ' ' || c = Char.ofNat 9 || c = Char.ofNat 10 || c = Char.ofNat 13

/-- The whitespace stripped by Python's `str.strip()` (the characters for
which `str.isspace()` holds): JSON whitespace plus vertical tab, form feed,
the file/group/record/unit separators U+001C-U+001F, next line U+0085,
no-break space U+00A0, ogham space mark U+1680, the U+2000-U+200A spaces,
line separator U+2028, paragraph separator U+2029, narrow no-break space
U+202F, medium mathematical space U+205F and ideographic space U+3000. -/
def isPyWs (c : Char) : Bool :=
  isJsonWs c || c = Char.ofNat 11 || c = Char.ofNat 12 ||
  (Char.ofNat 28 ≤ c && c ≤ Char.ofNat 31) ||
  c = Char.ofNat 133 || c = Char.ofNat 160 || c = Char.ofNat 5760 ||
  (Char.ofNat 8192 ≤ c && c ≤ Char.ofNat 8202) ||
  c = Char.ofNat 8232 || c = Char.ofNat 8233 || c = Char.ofNat 8239 ||
  c = Char.ofNat 8287 || c = Char.ofNat 12288

def skipJsonWs (cs : List Char) : List Char := cs.dropWhile isJsonWs

/-- Lines 118-124 (and their two copies): keep the content if, after
`str.strip()`, it starts with the object-opening character; otherwise slice
from the first such character when one exists (`str.find` plus `content[i:]`),
and keep the content unchanged when there is none (`find` returned -1).
`strip().startswith` is expressed as the head of the left-trimmed list, which
agrees because the opening brace is not whitespace. -/
def stripNoise (cs : List Char) : List Char :=
  if (cs.dropWhile isPyWs).head? = some braceOpen then cs
  else if cs.contains braceOpen then cs.dropWhile (fun c => !(c = braceOpen)) else cs

/-- Value of one hexadecimal digit, for string escapes. -/
def hexDigitVal (c : Char) : Option Nat :=
  if c.isDigit then some (c.toNat - 48)
  else if 'a' ≤ c && c ≤ 'f' then some (c.toNat - 87)
  else if 'A' ≤ c && c ≤ 'F' then some (c.toNat - 55)
  else none

/-- Body of a JSON string literal (the opening quote already consumed):
returns the decoded characters and the rest of the input. -/
def parseStrBody : Nat → List Char → Except String (List Char × List Char)
  | 0, _ => .error "fuel exhausted"
  | _ + 1, [] => .error "Unterminated string"
  | f + 1, c :: cs =>
    if c = dquote then .ok ([], cs)
    else if c = bslash then
      match cs with
      | [] => .error "Unterminated string"
      | e :: cs2 =>
        if e = 'u' then
          match cs2 with
          | h1 :: h2 :: h3 :: h4 :: cs3 =>
            match hexDigitVal h1, hexDigitVal h2, hexDigitVal h3, hexDigitVal h4 with
            | some a, some b, some c3, some d =>
              match parseStrBody f cs3 with
              | .ok (body, rest) =>
                .ok (Char.ofNat (((a * 16 + b) * 16 + c3) * 16 + d) :: body, rest)
              | .error err => .error err
            | _, _, _, _ => .error "Invalid hex escape"
          | _ => .error "Invalid hex escape"
        else
          let dec : Option Char :=
            if e = dquote then some dquote
            else if e = bslash then some bslash
            else if e = '/' then some '/'
            else if e = 'b' then some (Char.ofNat 8)
            else if e = 'f' then some (Char.ofNat 12)
            else if e = 'n' then some (Char.ofNat 10)
            else if e = 'r' then some (Char.ofNat 13)
            else if e = 't' then some (Char.ofNat 9)
            else none
          match dec with
          | some d =>
            match parseStrBody f cs2 with
            | .ok (body, rest) => .ok (d :: body, rest)
            | .error err => .error err
          | none => .error "Invalid escape"
    else
      match parseStrBody f cs with
      | .ok (body, rest) => .ok (c :: body, rest)
      | .error err => .error err

/-- Characters that may occur in a number lexeme. -/
def isNumChar (c : Char) : Bool :=
  c.isDigit || c = '-' || c = '+' || c = '.' || c = 'e' || c = 'E'

mutual

/-- One JSON value, fuel-based recursive descent modelling `json.loads`. -/
def parseVal : Nat → List Char → Except String (Json × List Char)
  | 0, _ => .error "fuel exhausted"
  | f + 1, cs =>
    match skipJsonWs cs with
    | [] => .error "Expecting value"
    | c :: rest =>
      if c = braceOpen then
        match skipJsonWs rest with
        | c2 :: rest2 =>
          if c2 = braceClose then .ok (.obj [], rest2)
          else parseMembers f (c2 :: rest2) []
        | [] => .error "Expecting property name"
      else if c = '[' then
        match skipJsonWs rest with
        | c2 :: rest2 =>
          if c2 = ']' then .ok (.arr [], rest2)
          else parseItems f (c2 :: rest2) []
        | [] => .error "Expecting value"
      else if c = dquote then
        match parseStrBody (rest.length + 1) rest with
        | .ok (body, r) => .ok (.str (String.mk body), r)
        | .error e => .error e
      else if c = 't' then
        if rest.take 3 = ['r', 'u', 'e'] then .ok (.bool true, rest.drop 3)
        else .error "Expecting value"
      else if c = 'f' then
        if rest.take 4 = ['a', 'l', 's', 'e'] then .ok (.bool false, rest.drop 4)
        else .error "Expecting value"
      else if c = 'n' then
        if rest.take 3 = ['u', 'l', 'l'] then .ok (.null, rest.drop 3)
        else .error "Expecting value"
      else if c.isDigit || c = '-' then
        .ok (.num (String.mk ((c :: rest).takeWhile isNumChar)),
             (c :: rest).dropWhile isNumChar)
      else .error "Expecting value"

/-- Members of an object after its opening brace (first member expected). -/
def parseMembers : Nat → List Char → List (String × Json) →
    Except String (Json × List Char)
  | 0, _, _ => .error "fuel exhausted"
  | f + 1, cs, acc =>
    match skipJsonWs cs with
    | [] => .error "Expecting property name"
    | c :: rest =>
      if c = dquote then
        match parseStrBody (rest.length + 1) rest with
        | .error e => .error e
        | .ok (key, r2) =>
          match skipJsonWs r2 with
          | c3 :: r3 =>
            if c3 = ':' then
              match parseVal f r3 with
              | .error e => .error e
              | .ok (v, r4) =>
                match skipJsonWs r4 with
                | c5 :: r5 =>
                  if c5 = ',' then parseMembers f r5 (acc ++ [(String.mk key, v)])
                  else if c5 = braceClose then
                    .ok (.obj (acc ++ [(String.mk key, v)]), r5)
                  else .error "Expecting comma delimiter"
                | [] => .error "Expecting comma delimiter"
            else .error "Expecting colon delimiter"
          | [] => .error "Expecting colon delimiter"
      else .error "Expecting property name"

/-- Items of an array after its opening bracket (first item expected). -/
def parseItems : Nat → List Char → List Json → Except String (Json × List Char)
  | 0, _, _ => .error "fuel exhausted"
  | f + 1, cs, acc =>
    match parseVal f cs with
    | .error e => .error e
    | .ok (v, r) =>
      match skipJsonWs r with
      | c :: rest =>
        if c = ',' then parseItems f rest (acc ++ [v])
        else if c = ']' then .ok (.arr (acc ++ [v]), rest)
        else .error "Expecting comma delimiter"
      | [] => .error "Expecting comma delimiter"

end

/-- `json.loads` on a character list: parse one value (after leading JSON
whitespace) and require only whitespace to remain. -/
def parseJson (cs : List Char) : Except String Json :=
  let t := skipJsonWs cs
  match parseVal (t.length + 1) t with
  | .error e => .error e
  | .ok (j, rest) => if (skipJsonWs rest).isEmpty then .ok j else .error "Extra data"

/-- First value bound to a key in an object member list (Python `dict`
lookup; member lists built by the parser list each key once). -/
def jsonLookup (kvs : List (String × Json)) (k : String) : Option Json :=
  (kvs.find? (fun kv => kv.1 = k)).map (fun kv => kv.2)

/-- Python `value.get(key, default)`: defined for a dict, an
`AttributeError` for every other value. -/
def pyGet (v : Json) (k : String) (dflt : Json) : Except String Json :=
  match v with
  | .obj kvs => .ok ((jsonLookup kvs k).getD dflt)
  | _ => .error "AttributeError: no attribute get"

/-- Python `key in value`: key lookup for a dict, element equality for a
list (a string equals only an equal string), substring test for a string,
a `TypeError` for the remaining values. -/
def pyContains (v : Json) (k : String) : Except String Bool :=
  match v with
  | .obj kvs => .ok (kvs.any (fun kv => kv.1 = k))
  | .arr xs => .ok (xs.any (fun x => match x with | .str s => s = k | _ => false))
  | .str s => .ok ((s.data.tails.any (fun t => k.data.isPrefixOf t)))
  | _ => .error "TypeError: argument not iterable"

/-- Python `value[key]` with a string key: dict lookup (`KeyError` when
absent), a `TypeError` for lists, strings and the other values. -/
def pySubscript (v : Json) (k : String) : Except String Json :=
  match v with
  | .obj kvs =>
    match jsonLookup kvs k with
    | some x => .ok x
    | none => .error "KeyError"
  | .str _ => .error "TypeError: string indices must be integers"
  | .arr _ => .error "TypeError: list indices must be integers"
  | _ => .error "TypeError: not subscriptable"

/-- Python `for x in value`: the elements of a list, the keys of a dict,
the characters of a string, a `TypeError` otherwise. -/
def pyIter (v : Json) : Except String (List Json) :=
  match v with
  | .arr xs => .ok xs
  | .obj kvs => .ok (kvs.map (fun kv => Json.str kv.1))
  | .str s => .ok (s.data.map (fun c => Json.str (String.mk [c])))
  | _ => .error "TypeError: not iterable"

/-- Inner loop of the walk (lines 129-131): `for seg in segs: if 'utf8' in
seg: subtitle_text += seg['utf8'] + " "`.  The accumulator is threaded
explicitly; an exception carries the text accumulated so far, because one
call site keeps it. -/
def walkSegs (acc : String) : List Json → String × Option String
  | [] => (acc, none)
  | seg :: rest =>
    match pyContains seg "utf8" with
    | .error e => (acc, some e)
    | .ok false => walkSegs acc rest
    | .ok true =>
      match pySubscript seg "utf8" with
      | .error e => (acc, some e)
      | .ok (.str s) => walkSegs (acc ++ s ++ " ") rest
      | .ok _ => (acc, some "TypeError: can only concatenate str")

/-- Outer loop of the walk (lines 127-131): `for event in events: if 'segs'
in event: for seg in event['segs']: ...`. -/
def walkEvents (acc : String) : List Json → String × Option String
  | [] => (acc, none)
  | ev :: rest =>
    match pyContains ev "segs" with
    | .error e => (acc, some e)
    | .ok false => walkEvents acc rest
    | .ok true =>
      match pySubscript ev "segs" with
      | .error e => (acc, some e)
      | .ok segsv =>
        match pyIter segsv with
        | .error e => (acc, some e)
        | .ok segs =>
          match walkSegs acc segs with
          | (acc2, none) => walkEvents acc2 rest
          | r => r

/-- The whole event/segment walk (lines 126-131):
`for event in subtitle_json.get('events', []): ...`. -/
def pyWalk (j : Json) (acc0 : String) : String × Option String :=
  match pyGet j "events" (Json.arr []) with
  | .error e => (acc0, some e)
  | .ok evv =>
    match pyIter evv with
    | .error e => (acc0, some e)
    | .ok evs => walkEvents acc0 evs

/-- Decode of one payload as done in the uploaded branch (lines 117-133) and
in the backup branch (lines 210-226): strip log noise, `json.loads`, walk.
Only `json.JSONDecodeError` is caught there (becoming the fixed Korean parse
message); a walk exception propagates to the top-level handler, so it is
returned as `.error`. -/
def decodeContent (content : String) : Except String String :=
  match parseJson (stripNoise content.data) with
  | .error e => .ok ("자막 파일을 파싱할 수 없습니다: " ++ e)
  | .ok j =>
    match pyWalk j "" with
    | (acc, none) => .ok acc
    | (_, some e) => .error e

/-- Decode of one payload as done in the auto-URL branch (lines 163-179),
whose surrounding `except Exception` (line 182) swallows walk exceptions,
keeping the partially accumulated text. -/
def decodeContentSwallow (content : String) : String :=
  match parseJson (stripNoise content.data) with
  | .error e => "자막 파일을 파싱할 수 없습니다: " ++ e
  | .ok j => (pyWalk j "").1

/-- One caption format entry of `info['subtitles']` /
`info['automatic_captions']` (the code reads only `ext` and `url`, each via
`.get`, hence optional). -/
structure SubFormat where
  ext : Option String
  url : Option String

/-- The part of the `yt_dlp` info dict the code reads: `title` and `id` via
`.get` with defaults, and the two caption dicts, modelled as association
lists in enumeration order. -/
structure Info where
  title : Option String
  id : Option String
  subtitles : List (String × List SubFormat)
  automatic_captions : List (String × List SubFormat)

/-- Results of the external calls made during one `extract_subtitles` run:
`ydl.extract_info`, the first `ydl.download` + `os.listdir` + file reads
(uploaded branch), `requests.get`, and the second `ydl.download` +
`os.listdir` + file reads (backup branch).  `.error` means the call raised. -/
structure Env where
  info : Except String Info
  uploadedDownload : Except String (List (String × String))
  httpGet : String → Except String (Nat × String)
  autoDownload : Except String (List (String × String))

/-- `language in dict` on the modelled caption dicts. -/
def keysContain (l : List (String × List SubFormat)) (k : String) : Bool :=
  l.any (fun kv => kv.1 = k)

/-- Python `str.endswith`, as a suffix test on the character lists. -/
def strEndsWith (s suffix : String) : Bool :=
  suffix.data.isSuffixOf s.data

/-- Uploaded branch body (lines 99-133): download, keep files ending in
`.{language}.json3`, decode the first one; no matching file leaves the text
empty. -/
def uploadedBranch (env : Env) (language : String) : Except String String :=
  match env.uploadedDownload with
  | .error e => .error e
  | .ok files =>
    match (files.filter
        (fun f => strEndsWith f.1 ("." ++ language ++ ".json3"))).head? with
    | none => .ok ""
    | some nc => decodeContent nc.2

/-- Auto-URL attempt (lines 144-185): find the first `json3` format, fetch
its `url`; every exception there (including a missing url, a failed request
and a walk error) is swallowed, and a non-200 status leaves the text
unchanged. -/
def autoUrlAttempt (env : Env) (fmtOpt : Option SubFormat) : String :=
  match fmtOpt with
  | none => ""
  | some fmt =>
    match fmt.url with
    | none => ""
    | some u =>
      match env.httpGet u with
      | .error _ => ""
      | .ok (status, body) =>
        if status = 200 then decodeContentSwallow body else ""

/-- Auto branch body (lines 138-226): URL attempt first, then -- only when
the text is still empty (line 188) -- the backup download filtered on
`.{language}.auto.json3`. -/
def autoBranch (env : Env) (language : String) (formats : List SubFormat) :
    Except String String :=
  let fmtOpt := formats.find? (fun f => f.ext = some "json3")
  let text1 := autoUrlAttempt env fmtOpt
  if text1 = "" then
    match env.autoDownload with
    | .error e => .error e
    | .ok files =>
      match (files.filter
          (fun f => strEndsWith f.1 ("." ++ language ++ ".auto.json3"))).head? with
      | none => .ok text1
      | some nc => decodeContent nc.2
  else .ok text1

/-- The format list for the requested language,
`automatic_captions.get(language, [])` (line 140). -/
def autoFormats (info : Info) (language : String) : List SubFormat :=
  ((info.automatic_captions.find? (fun kv => kv.1 = language)).map
    (fun kv => kv.2)).getD []

/-- Body of the outer `try` of `extract_subtitles` (lines 79-232): tier
selection interleaved with retrieval and decoding, producing the 4-tuple
(title, text, type, id); `.error` is an exception reaching the outer
handler. -/
def runExtract (env : Env) (language : String) :
    Except String (String × String × String × String) :=
  match env.info with
  | .error e => .error e
  | .ok info =>
    let video_title := info.title.getD "제목 없음"
    let video_id := info.id.getD ""
    let step1 : Except String (String × String) :=
      if keysContain info.subtitles language = true then
        match uploadedBranch env language with
        | .error e => .error e
        | .ok txt => .ok ("uploaded", txt)
      else .ok ("none", "")
    match step1 with
    | .error e => .error e
    | .ok (t1, x1) =>
      let step2 : Except String (String × String) :=
        if t1 = "none" ∧ keysContain info.automatic_captions language = true then
          match autoBranch env language (autoFormats info language) with
          | .error e => .error e
          | .ok txt => .ok ("auto", txt)
        else .ok (t1, x1)
      match step2 with
      | .error e => .error e
      | .ok (t2, x2) =>
        let x3 := if t2 = "none" then "이 영상에는 지정한 언어의 자막이 없습니다." else x2
        .ok (video_title, x3, t2, video_id)

/-- `extract_subtitles` (lines 61-238): the outer `except Exception` turns
every escaped exception into the fixed error 4-tuple. -/
def extract_subtitles (env : Env) (language : String) :
    String × String × String × String :=
  match runExtract env language with
  | .ok r => r
  | .error e => ("오류 발생", "자막 추출 중 오류 발생: " ++ e, "error", "")

/-- `analyze_youtube_subtitle` (lines 29-250): run the extraction and pack
the returned dict, modelled as a key-value list in construction order. -/
def analyze_youtube_subtitle (env : Env) (youtube_url : String)
    (language : String) : List (String × String) :=
  let r := extract_subtitles env language
  [("video_title", r.1), ("subtitle_text", r.2.1), ("subtitle_type", r.2.2.1),
   ("video_id", r.2.2.2), ("video_url", youtube_url)]

/-- The tier decision distilled from lines 93, 97-98, 136-137 and 229: the
value of `subtitle_type` as a function of the two caption-dict key lists and
the requested language. -/
def selectTier (subKeys autoKeys : List String) (language : String) : String :=
  if subKeys.contains language then "uploaded"
  else if autoKeys.contains language then "auto"
  else "none"

/-- Concatenation of a list of strings in order, with nothing inserted. -/
def concatAll (l : List String) : String := l.foldr (fun a b => a ++ b) ""

/-- Spec-side contribution of one segment: its text fragment followed by one
space when it is an object bearing a string `utf8` entry, nothing otherwise.
Written from the spec's walk description, to be compared with `walkSegs`. -/
def segPiece (s : Json) : String :=
  match s with
  | .obj kvs =>
    match jsonLookup kvs "utf8" with
    | some (.str t) => t ++ " "
    | _ => ""
  | _ => ""

/-- Spec-side contribution of one event: the concatenation over its segment
list when it is an object bearing a `segs` list, nothing otherwise. -/
def eventPiece (e : Json) : String :=
  match e with
  | .obj kvs =>
    match jsonLookup kvs "segs" with
    | some (.arr segs) => concatAll (segs.map segPiece)
    | _ => ""
  | _ => ""

/-- Spec-side flattening of an event list: fragments in order, each followed
by one space, skipped shapes contributing the empty string. -/
def specWalk (events : List Json) : String := concatAll (events.map eventPiece)

/-- A segment value that is an object (the shape claimed sufficient for
totality of the walk). -/
def SegShaped (s : Json) : Prop := ∃ kvs, s = Json.obj kvs

/-- A segment value that is an object whose `utf8` entry, when present, is a
string. -/
def SegStrOk (s : Json) : Prop :=
  ∃ kvs, s = Json.obj kvs ∧
    ∀ v, jsonLookup kvs "utf8" = some v → ∃ t, v = Json.str t

/-- An event value that is an object whose `segs` entry, when present, is a
list whose members all satisfy `P`. -/
def EventShapedWith (P : Json → Prop) (e : Json) : Prop :=
  ∃ kvs, e = Json.obj kvs ∧
    ∀ v, jsonLookup kvs "segs" = some v →
      ∃ segs, v = Json.arr segs ∧ ∀ s ∈ segs, P s

/-- A segment object carrying the given text fragment. -/
def mkSeg (s : String) : Json := Json.obj [("utf8", Json.str s)]

/-- An event object whose segments carry the given fragments in order. -/
def mkEvent (frags : List String) : Json :=
  Json.obj [("segs", Json.arr (frags.map mkSeg))]

/-- A payload object whose events carry the given fragment lists in order. -/
def mkPayload (eventFrags : List (List String)) : Json :=
  Json.obj [("events", Json.arr (eventFrags.map mkEvent))]

/-- The raw hello/world payload of the spec's whitespace example, written
out character by character:
`{"events":[{"segs":[{"utf8":"hello"},{"utf8":"world"}]}]}`. -/
def payloadHW : String := String.mk
  ([braceOpen, dquote] ++ "events".data ++ [dquote, ':', '['] ++
   [braceOpen, dquote] ++ "segs".data ++ [dquote, ':', '['] ++
   [braceOpen, dquote] ++ "utf8".data ++ [dquote, ':', dquote] ++
   "hello".data ++ [dquote, braceClose, ','] ++
   [braceOpen, dquote] ++ "utf8".data ++ [dquote, ':', dquote] ++
   "world".data ++ [dquote, braceClose, ']'] ++
   [braceClose, ']', braceClose])

/-- Environment with an authored and a generated `ko` track, the authored
payload downloading as the hello/world payload. -/
def envBoth : Env :=
  { info := .ok { title := some "t", id := some "vid",
                  subtitles := [("ko", [])],
                  automatic_captions := [("ko", [])] }
    uploadedDownload := .ok [("vid.ko.json3", payloadHW)]
    httpGet := fun _ => .error "offline"
    autoDownload := .error "unused" }

/-- Environment whose catalog lookup raises. -/
def envRaise : Env :=
  { info := .error "boom"
    uploadedDownload := .error "unused"
    httpGet := fun _ => .error "unused"
    autoDownload := .error "unused" }

/-- Environment with only a generated English track (scenario B catalog). -/
def envOnlyEn : Env :=
  { info := .ok { title := some "t", id := some "vid",
                  subtitles := [],
                  automatic_captions := [("en", [⟨some "json3", some "hu"⟩])] }
    uploadedDownload := .error "unused"
    httpGet := fun _ => .ok (200, payloadHW)
    autoDownload := .error "unused" }

/-- Environment whose authored `ko` track downloads an unparseable payload. -/
def envBadPayload : Env :=
  { info := .ok { title := some "t", id := some "vid",
                  subtitles := [("ko", [])],
                  automatic_captions := [] }
    uploadedDownload := .ok [("vid.ko.json3", "xx")]
    httpGet := fun _ => .error "unused"
    autoDownload := .error "unused" }

/-- Environment whose authored tracks are tagged with Korean alias codes
(`kor`, `ko-KR`) but not with the bare `ko`. -/
def envAlias : Env :=
  { info := .ok { title := some "t", id := some "vid",
                  subtitles := [("kor", []), ("ko-KR", [])],
                  automatic_captions := [] }
    uploadedDownload := .ok []
    httpGet := fun _ => .error "unused"
    autoDownload := .error "unused" }

/-- Environment whose catalog lookup raises with a disabled-captions
diagnostic. -/
def envDisabled : Env :=
  { info := .error "Subtitles are disabled for this video"
    uploadedDownload := .error "unused"
    httpGet := fun _ => .error "unused"
    autoDownload := .error "unused" }

/-- A payload whose events and segments are all objects and whose single
`utf8` entry is a number, not a string. -/
def numUtf8Payload : Json :=
  Json.obj [("events", Json.arr
    [Json.obj [("segs", Json.arr [Json.obj [("utf8", Json.num "5")]])]])]

theorem runExtract_info_error (env : Env) (language e : String)
    (h : env.info = .error e) : runExtract env language = .error e := by
  unfold runExtract
  rw [h]

theorem runExtract_uploaded (env : Env) (info : Info) (language txt : String)
    (h1 : env.info = .ok info)
    (h2 : keysContain info.subtitles language = true)
    (h3 : uploadedBranch env language = .ok txt) :
    runExtract env language =
      .ok (info.title.getD "제목 없음", txt, "uploaded", info.id.getD "") := by
  unfold runExtract
  rw [h1]
  simp [h2, h3]

theorem runExtract_none (env : Env) (info : Info) (language : String)
    (h1 : env.info = .ok info)
    (h2 : keysContain info.subtitles language = false)
    (h3 : keysContain info.automatic_captions language = false) :
    runExtract env language =
      .ok (info.title.getD "제목 없음", "이 영상에는 지정한 언어의 자막이 없습니다.",
           "none", info.id.getD "") := by
  unfold runExtract
  rw [h1]
  simp [h2, h3]

/-- C1: for every catalog containing both an AUTHORED track and a GENERATED
track matching the requested language, selection returns the authored track
(subtitle_type `uploaded`), never the generated one, regardless of the
catalog's enumeration order: the tier decision depends only on key
membership, and the full pipeline reports `uploaded` whenever the requested
language is a key of both caption dicts and the authored payload decodes. -/
theorem c1_tier_precedence :
    (∀ (subKeys autoKeys : List String) (language : String),
      subKeys.contains language = true → autoKeys.contains language = true →
      selectTier subKeys autoKeys language = "uploaded" ∧
      selectTier subKeys autoKeys language ≠ "auto") ∧
    (∀ (env : Env) (info : Info) (language txt : String),
      env.info = .ok info →
      keysContain info.subtitles language = true →
      keysContain info.automatic_captions language = true →
      uploadedBranch env language = .ok txt →
      extract_subtitles env language =
        (info.title.getD "제목 없음", txt, "uploaded", info.id.getD "")) := by
  constructor
  · intro subKeys autoKeys language h1 _h2
    have h1m : language ∈ subKeys := by simpa using h1
    refine ⟨?_, ?_⟩ <;> simp [selectTier, h1m]
  · intro env info language txt h1 h2 h3 h4
    unfold extract_subtitles
    rw [runExtract_uploaded env info language txt h1 h2 h4]

/-- Witness for C1 at a concrete catalog with both a `ko` authored and a
`ko` generated track. -/
theorem c1_witness :
    selectTier ["ko"] ["ko"] "ko" = "uploaded" ∧
    extract_subtitles envBoth "ko" = ("t", "hello world ", "uploaded", "vid") := by
  refine ⟨(c1_tier_precedence.1 ["ko"] ["ko"] "ko" (by decide) (by decide)).1, ?_⟩
  exact c1_tier_precedence.2 envBoth
    { title := some "t", id := some "vid",
      subtitles := [("ko", [])], automatic_captions := [("ko", [])] }
    "ko" "hello world " rfl (by decide) (by decide) (by rfl)

/-- C2 counterexample: with a catalog holding only a generated `en` track
and requested language `fr`, the code returns subtitle_type `none` (there is
no translated tier and no arbitrary-fallback tier), not `auto` as claimed. -/
theorem c2_counterexample :
    extract_subtitles envOnlyEn "fr" =
      ("t", "이 영상에는 지정한 언어의 자막이 없습니다.", "none", "vid") ∧
    ("none" : String) ≠ "auto" := by
  exact ⟨by rfl, by decide⟩

/-- C2 amended: for a catalog with an empty authored dict and only a
generated `en` track, requested language `fr` matches no tier, and the
record carries subtitle_type `none` with the fixed no-captions message. -/
theorem c2_no_fallback_none (env : Env) (info : Info) (fmts : List SubFormat)
    (h1 : env.info = .ok info)
    (h2 : info.subtitles = [])
    (h3 : info.automatic_captions = [("en", fmts)]) :
    extract_subtitles env "fr" =
      (info.title.getD "제목 없음", "이 영상에는 지정한 언어의 자막이 없습니다.",
       "none", info.id.getD "") := by
  unfold extract_subtitles
  rw [runExtract_none env info "fr" h1 (by rw [h2]; rfl)
    (by rw [h3]; simp [keysContain])]

/-- Witness for the amended C2 at the concrete scenario-B environment. -/
theorem c2_witness :
    extract_subtitles envOnlyEn "fr" =
      ("t", "이 영상에는 지정한 언어의 자막이 없습니다.", "none", "vid") := by
  exact c2_no_fallback_none envOnlyEn
    { title := some "t", id := some "vid", subtitles := [],
      automatic_captions := [("en", [⟨some "json3", some "hu"⟩])] }
    [⟨some "json3", some "hu"⟩] rfl rfl rfl

/-- C3: the returned record has exactly the five keys video_title,
subtitle_text, subtitle_type, video_id, video_url, in that order, for every
environment; and every exception escaping the extraction body is caught and
converted into the fixed error 4-tuple, so no input makes the call raise. -/
theorem c3_record_shape :
    (∀ (env : Env) (youtube_url language : String),
      (analyze_youtube_subtitle env youtube_url language).map Prod.fst =
        ["video_title", "subtitle_text", "subtitle_type", "video_id",
         "video_url"]) ∧
    (∀ (env : Env) (language e : String),
      runExtract env language = .error e →
      extract_subtitles env language =
        ("오류 발생", "자막 추출 중 오류 발생: " ++ e, "error", "")) := by
  constructor
  · intro env youtube_url language
    simp [analyze_youtube_subtitle]
  · intro env language e h
    unfold extract_subtitles
    rw [h]

/-- Witness for C3 at an environment whose catalog lookup raises. -/
theorem c3_witness :
    (analyze_youtube_subtitle envRaise "u" "ko").map Prod.fst =
      ["video_title", "subtitle_text", "subtitle_type", "video_id",
       "video_url"] ∧
    extract_subtitles envRaise "ko" =
      ("오류 발생", "자막 추출 중 오류 발생: boom", "error", "") := by
  exact ⟨c3_record_shape.1 envRaise "u" "ko",
         c3_record_shape.2 envRaise "ko" "boom" rfl⟩

/-- C5: when the requested language is a key of neither caption dict, the
tier decision is NONE and the record is `none` with the fixed no-captions
message, which is not empty. -/
theorem c5_none_tier :
    (∀ (subKeys autoKeys : List String) (language : String),
      subKeys.contains language = false → autoKeys.contains language = false →
      selectTier subKeys autoKeys language = "none") ∧
    (∀ (env : Env) (info : Info) (language : String),
      env.info = .ok info →
      keysContain info.subtitles language = false →
      keysContain info.automatic_captions language = false →
      extract_subtitles env language =
        (info.title.getD "제목 없음", "이 영상에는 지정한 언어의 자막이 없습니다.",
         "none", info.id.getD "")) ∧
    ("이 영상에는 지정한 언어의 자막이 없습니다." : String) ≠ "" := by
  refine ⟨?_, ?_, by decide⟩
  · intro subKeys autoKeys language h1 h2
    have h1m : language ∉ subKeys := by simpa using h1
    have h2m : language ∉ autoKeys := by simpa using h2
    simp [selectTier, h1m, h2m]
  · intro env info language h1 h2 h3
    unfold extract_subtitles
    rw [runExtract_none env info language h1 h2 h3]

/-- Witness for C5: request `ja` against a catalog with only alias-tagged
Korean authored tracks. -/
theorem c5_witness :
    selectTier ["kor"] [] "ja" = "none" ∧
    extract_subtitles envAlias "ja" =
      ("t", "이 영상에는 지정한 언어의 자막이 없습니다.", "none", "vid") := by
  refine ⟨c5_none_tier.1 ["kor"] [] "ja" (by decide) (by decide), ?_⟩
  exact c5_none_tier.2.1 envAlias
    { title := some "t", id := some "vid",
      subtitles := [("kor", []), ("ko-KR", [])], automatic_captions := [] }
    "ja" rfl (by decide) (by decide)

/-- C9 counterexample: when the catalog lookup raises (captions disabled),
the code returns the generic exception record -- the prefixed underlying
message and an empty video id -- not the fixed disabled-captions message
with the id populated. -/
theorem c9_counterexample :
    extract_subtitles envDisabled "ko" =
      ("오류 발생", "자막 추출 중 오류 발생: Subtitles are disabled for this video",
       "error", "") ∧
    ("자막 추출 중 오류 발생: Subtitles are disabled for this video" : String) ≠
      "이 영상은 자막이 비활성화되어 있습니다." ∧
    (extract_subtitles envDisabled "ko").2.2.2 = "" := by
  exact ⟨by rfl, by decide, by rfl⟩

/-- C9 amended: when the catalog lookup raises, the record has
subtitle_type `error`, text equal to the fixed prefix followed by the
underlying message, and an empty video id. -/
theorem c9_catalog_error (env : Env) (language e : String)
    (h : env.info = .error e) :
    extract_subtitles env language =
      ("오류 발생", "자막 추출 중 오류 발생: " ++ e, "error", "") := by
  unfold extract_subtitles
  rw [runExtract_info_error env language e h]

/-- Witness for the amended C9 at the disabled-captions environment. -/
theorem c9_witness :
    extract_subtitles envDisabled "ja" =
      ("오류 발생", "자막 추출 중 오류 발생: Subtitles are disabled for this video",
       "error", "") := by
  exact c9_catalog_error envDisabled "ja" "Subtitles are disabled for this video" rfl

theorem append_ne_empty (a b : String) (h : a ≠ "") : a ++ b ≠ "" := by
  intro hab
  apply h
  have hd := congrArg String.data hab
  rw [String.data_append] at hd
  have ha : a.data = [] := (List.append_eq_nil.mp hd).1
  cases a with
  | mk l =>
    cases ha
    rfl

/-- C4 counterexample: a payload parse failure in the uploaded branch keeps
subtitle_type `uploaded` (set before decoding, line 98) -- it is neither
`error` nor `none` as claimed, though the text does explain the failure. -/
theorem c4_counterexample :
    extract_subtitles envBadPayload "ko" =
      ("t", "자막 파일을 파싱할 수 없습니다: Expecting value", "uploaded", "vid") ∧
    ¬ (("uploaded" : String) = "error" ∨ ("uploaded" : String) = "none") := by
  exact ⟨by rfl, by decide⟩

/-- C4 amended: exception paths produce subtitle_type `error` with a
non-empty prefixed explanation; a payload parse failure instead keeps the
already selected subtitle_type (`uploaded` in the authored branch) and puts
the non-empty parse diagnostic in the text. -/
theorem c4_failure_shapes :
    (∀ (env : Env) (language e : String),
      runExtract env language = .error e →
      (extract_subtitles env language).2.2.1 = "error" ∧
      (extract_subtitles env language).2.1 ≠ "") ∧
    (∀ (env : Env) (info : Info) (language : String)
      (files : List (String × String)) (name content e : String),
      env.info = .ok info →
      keysContain info.subtitles language = true →
      env.uploadedDownload = .ok files →
      (files.filter
        (fun f => strEndsWith f.1 ("." ++ language ++ ".json3"))).head? =
          some (name, content) →
      parseJson (stripNoise content.data) = .error e →
      extract_subtitles env language =
        (info.title.getD "제목 없음", "자막 파일을 파싱할 수 없습니다: " ++ e,
         "uploaded", info.id.getD "") ∧
      "자막 파일을 파싱할 수 없습니다: " ++ e ≠ "") := by
  constructor
  · intro env language e h
    unfold extract_subtitles
    rw [h]
    exact ⟨rfl, append_ne_empty _ _ (by decide)⟩
  · intro env info language files name content e h1 h2 h3 h4 h5
    have hub : uploadedBranch env language =
        .ok ("자막 파일을 파싱할 수 없습니다: " ++ e) := by
      unfold uploadedBranch
      rw [h3]
      dsimp only
      rw [h4]
      dsimp only
      unfold decodeContent
      rw [h5]
    refine ⟨?_, append_ne_empty _ _ (by decide)⟩
    unfold extract_subtitles
    rw [runExtract_uploaded env info language _ h1 h2 hub]

/-- Witness for the amended C4: one exception environment and one
unparseable-payload environment. -/
theorem c4_witness :
    ((extract_subtitles envRaise "en").2.2.1 = "error" ∧
     (extract_subtitles envRaise "en").2.1 ≠ "") ∧
    (extract_subtitles envBadPayload "ko" =
      ("t", "자막 파일을 파싱할 수 없습니다: Expecting value", "uploaded", "vid") ∧
     ("자막 파일을 파싱할 수 없습니다: " ++ "Expecting value" : String) ≠ "") := by
  refine ⟨c4_failure_shapes.1 envRaise "en" "boom" rfl, ?_⟩
  exact c4_failure_shapes.2 envBadPayload
    { title := some "t", id := some "vid",
      subtitles := [("ko", [])], automatic_captions := [] }
    "ko" [("vid.ko.json3", "xx")] "vid.ko.json3" "xx" "Expecting value"
    rfl (by decide) rfl (by rfl) (by rfl)

theorem concatAll_append (l1 l2 : List String) :
    concatAll (l1 ++ l2) = concatAll l1 ++ concatAll l2 := by
  induction l1 with
  | nil => simp [concatAll]
  | cons a tl ih => simp [concatAll, String.append_assoc] at ih ⊢; rw [ih]

theorem walkSegs_mkSeg (l : List String) :
    ∀ acc : String,
      walkSegs acc (l.map mkSeg) =
        (acc ++ concatAll (l.map (fun s => s ++ " ")), none) := by
  induction l with
  | nil => intro acc; simp [walkSegs, concatAll]
  | cons s tl ih =>
    intro acc
    simp only [List.map_cons, walkSegs, mkSeg, pyContains, pySubscript, jsonLookup,
      List.any_cons, List.any_nil, List.find?, decide_True, Bool.or_false]
    simp only [Option.map_some']
    rw [ih (acc ++ s ++ " ")]
    simp [concatAll, String.append_assoc]

theorem walkEvents_mkEvent (l : List (List String)) :
    ∀ acc : String,
      walkEvents acc (l.map mkEvent) =
        (acc ++ concatAll ((l.flatten).map (fun s => s ++ " ")), none) := by
  induction l with
  | nil => intro acc; simp [walkEvents, concatAll]
  | cons fr tl ih =>
    intro acc
    simp only [List.map_cons, walkEvents, mkEvent, pyContains, pySubscript,
      jsonLookup, pyIter, List.any_cons, List.any_nil, List.find?, decide_True,
      Bool.or_false]
    simp only [Option.map_some']
    rw [walkSegs_mkSeg fr acc]
    dsimp only
    rw [ih (acc ++ concatAll (fr.map (fun s => s ++ " ")))]
    simp [List.map_append, concatAll_append, String.append_assoc]

/-- C6: on a payload whose events and segments all carry text fragments, the
walk visits events in order and segments in order, appending each fragment
followed by exactly one space, with no trimming, collapsing or reordering;
in particular fragments `hello` and `world` flatten to `hello world ` with
the trailing space preserved. -/
theorem c6_decoder_order :
    (∀ frags : List (List String),
      pyWalk (mkPayload frags) "" =
        (concatAll ((frags.flatten).map (fun s => s ++ " ")), none)) ∧
    pyWalk (mkPayload [["hello", "world"]]) "" = ("hello world ", none) := by
  have hmain : ∀ frags : List (List String),
      pyWalk (mkPayload frags) "" =
        (concatAll ((frags.flatten).map (fun s => s ++ " ")), none) := by
    intro frags
    simp only [pyWalk, mkPayload, pyGet, pyIter, jsonLookup, List.find?,
      decide_True]
    simp only [Option.map_some', Option.getD_some]
    rw [walkEvents_mkEvent frags ""]
    simp [String.empty_append]
  refine ⟨hmain, ?_⟩
  rw [hmain [["hello", "world"]]]
  rfl

theorem any_key_eq_isSome (kvs : List (String × Json)) (k : String) :
    (kvs.any fun kv => kv.1 = k) = (jsonLookup kvs k).isSome := by
  induction kvs with
  | nil => rfl
  | cons a tl ih =>
    simp only [List.any_cons, jsonLookup, List.find?]
    by_cases h : a.1 = k
    · simp [h]
    · simp only [h, decide_False, Bool.false_or]
      simp only [jsonLookup] at ih
      exact ih

theorem pyContains_obj (kvs : List (String × Json)) (k : String) :
    pyContains (Json.obj kvs) k = .ok ((jsonLookup kvs k).isSome) := by
  simp [pyContains, any_key_eq_isSome]

theorem pySubscript_obj (kvs : List (String × Json)) (k : String) (v : Json)
    (h : jsonLookup kvs k = some v) :
    pySubscript (Json.obj kvs) k = .ok v := by
  simp [pySubscript, h]

theorem walkSegs_strOk (segs : List Json) (hall : ∀ s ∈ segs, SegStrOk s) :
    ∀ acc : String,
      walkSegs acc segs = (acc ++ concatAll (segs.map segPiece), none) := by
  induction segs with
  | nil => intro acc; simp [walkSegs, concatAll]
  | cons sg tl ih =>
    intro acc
    obtain ⟨kvs, rfl, hstr⟩ := hall sg (by simp)
    have htl : ∀ s ∈ tl, SegStrOk s := fun s hs => hall s (by simp [hs])
    cases hlk : jsonLookup kvs "utf8" with
    | none =>
      simp only [walkSegs, pyContains_obj, hlk, Option.isSome_none]
      rw [ih htl acc]
      simp [segPiece, hlk, concatAll, List.map_cons]
    | some v =>
      obtain ⟨t, rfl⟩ := hstr v hlk
      simp only [walkSegs, pyContains_obj, hlk, Option.isSome_some,
        pySubscript_obj kvs "utf8" _ hlk]
      rw [ih htl (acc ++ t ++ " ")]
      simp [segPiece, hlk, concatAll, List.map_cons, String.append_assoc]

theorem walkEvents_strOk (events : List Json)
    (hall : ∀ e ∈ events, EventShapedWith SegStrOk e) :
    ∀ acc : String,
      walkEvents acc events = (acc ++ concatAll (events.map eventPiece), none) := by
  induction events with
  | nil => intro acc; simp [walkEvents, concatAll]
  | cons ev tl ih =>
    intro acc
    obtain ⟨kvs, rfl, hsegs⟩ := hall ev (by simp)
    have htl : ∀ e ∈ tl, EventShapedWith SegStrOk e :=
      fun e he => hall e (by simp [he])
    cases hlk : jsonLookup kvs "segs" with
    | none =>
      simp only [walkEvents, pyContains_obj, hlk, Option.isSome_none]
      rw [ih htl acc]
      simp [eventPiece, hlk, concatAll, List.map_cons]
    | some v =>
      obtain ⟨segs, rfl, hsall⟩ := hsegs v hlk
      simp only [walkEvents, pyContains_obj, hlk, Option.isSome_some,
        pySubscript_obj kvs "segs" _ hlk, pyIter]
      rw [walkSegs_strOk segs hsall acc]
      dsimp only
      rw [ih htl (acc ++ concatAll (segs.map segPiece))]
      simp [eventPiece, hlk, concatAll, List.map_cons, String.append_assoc]

/-- C10 amended: on a parsed payload that is an object, the walk yields the
empty accumulator when the `events` key is absent; and when `events` is a
list of objects whose `segs` entries (when present) are lists of objects
whose `utf8` entries (when present) are strings, the walk terminates
without exception and equals the spec-side skip-walk, so events lacking
`segs` and segments lacking `utf8` contribute nothing.  (The extra
utf8-is-a-string condition is forced: see the counterexample.) -/
theorem c10_walk_total (kvs : List (String × Json)) :
    (jsonLookup kvs "events" = none → pyWalk (Json.obj kvs) "" = ("", none)) ∧
    (∀ events : List Json,
      jsonLookup kvs "events" = some (Json.arr events) →
      (∀ e ∈ events, EventShapedWith SegStrOk e) →
      pyWalk (Json.obj kvs) "" = (specWalk events, none)) := by
  constructor
  · intro h
    simp [pyWalk, pyGet, h, pyIter, walkEvents]
  · intro events h hall
    simp only [pyWalk, pyGet, h, Option.getD_some, pyIter]
    rw [walkEvents_strOk events hall ""]
    simp [specWalk]

/-- C10 counterexample: a payload within the claimed shape hypotheses (the
events are objects, the `segs` entries are lists of objects) whose `utf8`
entry is a number makes the walk raise a `TypeError` (`5 + " "` in Python),
so the claimed totality fails as stated. -/
theorem c10_counterexample :
    EventShapedWith SegShaped
      (Json.obj [("segs", Json.arr [Json.obj [("utf8", Json.num "5")]])]) ∧
    (pyWalk numUtf8Payload "").2 = some "TypeError: can only concatenate str" := by
  constructor
  · refine ⟨_, rfl, ?_⟩
    intro v hv
    have hv2 : Json.arr [Json.obj [("utf8", Json.num "5")]] = v :=
      Option.some.inj hv
    subst hv2
    refine ⟨_, rfl, ?_⟩
    intro s hs
    rw [List.mem_singleton] at hs
    subst hs
    exact ⟨[("utf8", Json.num "5")], rfl⟩
  · rfl

/-- Witness for the amended C10: a payload without `events`, and a payload
with one fragment-bearing event plus one event without `segs`. -/
theorem c10_witness :
    pyWalk (Json.obj [("x", Json.null)]) "" = ("", none) ∧
    pyWalk (Json.obj [("events", Json.arr [mkEvent ["hi"], Json.obj []])]) "" =
      ("hi ", none) := by
  constructor
  · exact (c10_walk_total [("x", Json.null)]).1 rfl
  · apply (c10_walk_total
      [("events", Json.arr [mkEvent ["hi"], Json.obj []])]).2
      [mkEvent ["hi"], Json.obj []] rfl
    intro e he
    simp only [List.mem_cons, List.mem_singleton] at he
    rcases he with rfl | rfl | h
    · refine ⟨_, rfl, ?_⟩
      intro v hv
      have hv2 : Json.arr [mkSeg "hi"] = v := Option.some.inj hv
      subst hv2
      refine ⟨_, rfl, ?_⟩
      intro s hs
      rw [List.mem_singleton] at hs
      subst hs
      exact ⟨[("utf8", Json.str "hi")], rfl,
        fun v hv => ⟨"hi", (Option.some.inj hv).symm⟩⟩
    · exact ⟨[], rfl, fun v hv => absurd hv (by simp [jsonLookup])⟩
    · cases h

theorem contains_filter_ne (l : List String) (k lang : String) (h : ¬ k = lang) :
    (l.filter (fun s => !(s = k))).contains lang = l.contains lang := by
  induction l with
  | nil => rfl
  | cons a tl ih =>
    have hlk : (lang == k) = false := by
      simp only [beq_eq_false_iff_ne]
      exact fun hh => h hh.symm
    by_cases hak : a = k
    · subst hak
      rw [List.filter_cons_of_neg (by simp), ih, List.contains_cons, hlk,
        Bool.false_or]
    · rw [List.filter_cons_of_pos (by simp [hak]), List.contains_cons, ih,
        List.contains_cons]

/-- C8 counterexample: authored tracks tagged with the Korean alias codes
`kor` and `ko-KR` are not matched by the requested base code `ko` -- the
code has no language expander and no variant scan, so the result is `none`
rather than the authored selection the claimed alias expansion implies. -/
theorem c8_counterexample :
    extract_subtitles envAlias "ko" =
      ("t", "이 영상에는 지정한 언어의 자막이 없습니다.", "none", "vid") ∧
    ("none" : String) ≠ "uploaded" := by
  exact ⟨by rfl, by decide⟩

/-- C8 amended: matching is a single exact-equality membership test of the
requested code against the caption-dict keys -- every code behaves as a
singleton variant set.  When no key equals the requested code (aliases
included) the record is `none`, and dropping any differently named key never
changes the tier decision. -/
theorem c8_exact_match :
    (∀ (env : Env) (info : Info) (lang : String),
      env.info = .ok info →
      (∀ kv ∈ info.subtitles, ¬ kv.1 = lang) →
      (∀ kv ∈ info.automatic_captions, ¬ kv.1 = lang) →
      (extract_subtitles env lang).2.2.1 = "none") ∧
    (∀ (subKeys autoKeys : List String) (lang k : String), ¬ k = lang →
      selectTier (subKeys.filter (fun s => !(s = k))) autoKeys lang =
        selectTier subKeys autoKeys lang) := by
  constructor
  · intro env info lang h1 h2 h3
    have hs : keysContain info.subtitles lang = false := by
      simp only [keysContain, List.any_eq_false, decide_eq_true_eq]
      exact h2
    have ha : keysContain info.automatic_captions lang = false := by
      simp only [keysContain, List.any_eq_false, decide_eq_true_eq]
      exact h3
    unfold extract_subtitles
    rw [runExtract_none env info lang h1 hs ha]
  · intro subKeys autoKeys lang k h
    simp only [selectTier, contains_filter_ne subKeys k lang h]

/-- Witness for the amended C8: request `en` against the alias-only catalog,
and drop an unrelated key from a key list. -/
theorem c8_witness :
    (extract_subtitles envAlias "en").2.2.1 = "none" ∧
    selectTier (["kor"].filter (fun s => !(s = "en"))) [] "ko" =
      selectTier ["kor"] [] "ko" := by
  refine ⟨?_, c8_exact_match.2 ["kor"] [] "ko" "en" (by decide)⟩
  exact c8_exact_match.1 envAlias
    { title := some "t", id := some "vid",
      subtitles := [("kor", []), ("ko-KR", [])], automatic_captions := [] }
    "en" rfl (by decide) (by decide)

theorem stripNoise_append (n p : List Char)
    (hn : ∀ c ∈ n, ¬ c = braceOpen)
    (hp : p.head? = some braceOpen)
    (hw : (∃ c ∈ n, isPyWs c = false) ∨ (∀ c ∈ n, isJsonWs c = true)) :
    parseJson (stripNoise (n ++ p)) = parseJson (stripNoise p) := by
  obtain ⟨tl, rfl⟩ : ∃ tl, p = braceOpen :: tl := by
    cases p with
    | nil => cases hp
    | cons c tl => exact ⟨tl, by rw [show c = braceOpen from Option.some.inj hp]⟩
  have hstripp : stripNoise (braceOpen :: tl) = braceOpen :: tl := by
    unfold stripNoise
    rw [List.dropWhile_cons]
    simp
  rw [hstripp]
  rcases hw with ⟨c0, hc0m, hc0⟩ | hjw
  · have hne : n.dropWhile isPyWs ≠ [] := by
      intro hnil
      rw [List.dropWhile_eq_nil_iff] at hnil
      rw [hnil c0 hc0m] at hc0
      cases hc0
    obtain ⟨d, ds, hds⟩ : ∃ d ds, n.dropWhile isPyWs = d :: ds := by
      cases hcase : n.dropWhile isPyWs with
      | nil => exact absurd hcase hne
      | cons d ds => exact ⟨d, ds, rfl⟩
    have hda : List.dropWhile isPyWs (n ++ braceOpen :: tl) =
        d :: (ds ++ braceOpen :: tl) := by
      rw [List.dropWhile_append, hds]
      simp
    have hdmem : d ∈ n := by
      have hmem : d ∈ n.dropWhile isPyWs := by
        rw [hds]
        exact List.mem_cons_self d ds
      exact (List.dropWhile_sublist isPyWs).mem hmem
    have hdneq : ¬ d = braceOpen := hn d hdmem
    have hhead : ¬ (List.dropWhile isPyWs (n ++ braceOpen :: tl)).head? =
        some braceOpen := by
      rw [hda]
      simp [hdneq]
    have hcont : (n ++ braceOpen :: tl).contains braceOpen = true := by
      have hmem : braceOpen ∈ n ++ braceOpen :: tl := by simp
      exact List.elem_eq_true_of_mem hmem
    have hdw : List.dropWhile (fun c => !(c = braceOpen)) (n ++ braceOpen :: tl) =
        braceOpen :: tl := by
      have hnil : List.dropWhile (fun c => !(c = braceOpen)) n = [] := by
        rw [List.dropWhile_eq_nil_iff]
        intro x hx
        simp [hn x hx]
      rw [List.dropWhile_append, hnil]
      simp [List.dropWhile_cons]
    unfold stripNoise
    rw [if_neg hhead, if_pos hcont, hdw]
  · have hpw : ∀ c ∈ n, isPyWs c = true := by
      intro c hc
      simp [isPyWs, hjw c hc]
    have hda : List.dropWhile isPyWs (n ++ braceOpen :: tl) = braceOpen :: tl := by
      rw [List.dropWhile_append, List.dropWhile_eq_nil_iff.mpr hpw]
      have hb : isPyWs braceOpen = false := by decide
      simp [List.dropWhile_cons, hb]
    have hstrip2 : stripNoise (n ++ braceOpen :: tl) = n ++ braceOpen :: tl := by
      unfold stripNoise
      rw [if_pos (by rw [hda]; rfl)]
    rw [hstrip2]
    have hskip : skipJsonWs (n ++ braceOpen :: tl) = skipJsonWs (braceOpen :: tl) := by
      unfold skipJsonWs
      rw [List.dropWhile_append, List.dropWhile_eq_nil_iff.mpr hjw]
      simp
    unfold parseJson
    rw [hskip]

/-- C7 counterexample: a noise prefix made of one vertical tab (Python
whitespace but not JSON whitespace) survives the `strip().startswith` check,
reaches `json.loads`, and turns a decodable payload into a parse failure, so
decoding the noisy payload is not identical to decoding the stripped one. -/
theorem c7_counterexample :
    decodeContent (String.mk [Char.ofNat 11, braceOpen, braceClose]) =
      .ok "자막 파일을 파싱할 수 없습니다: Expecting value" ∧
    decodeContent (String.mk [braceOpen, braceClose]) = .ok "" ∧
    decodeContent (String.mk [Char.ofNat 11, braceOpen, braceClose]) ≠
      decodeContent (String.mk [braceOpen, braceClose]) := by
  refine ⟨by rfl, by rfl, ?_⟩
  intro hcontra
  rw [show decodeContent (String.mk [Char.ofNat 11, braceOpen, braceClose]) =
        .ok "자막 파일을 파싱할 수 없습니다: Expecting value" from rfl,
      show decodeContent (String.mk [braceOpen, braceClose]) = .ok "" from rfl]
    at hcontra
  exact absurd (Except.ok.inj hcontra) (by decide)

/-- C7 amended: prepending non-JSON noise containing no opening brace to a
payload that starts with one decodes identically to the bare payload,
provided the noise has a non-whitespace character (so the slice-from-brace
path runs) or consists purely of JSON whitespace (which the parser skips
anyway); whitespace-only noise containing non-JSON whitespace such as a
vertical tab is excluded, as the counterexample shows it changes the
result. -/
theorem c7_noise_tolerance (noise payload : String)
    (hn : ∀ c ∈ noise.data, ¬ c = braceOpen)
    (hp : payload.data.head? = some braceOpen)
    (hw : (∃ c ∈ noise.data, isPyWs c = false) ∨
          (∀ c ∈ noise.data, isJsonWs c = true)) :
    decodeContent (noise ++ payload) = decodeContent payload ∧
    decodeContentSwallow (noise ++ payload) = decodeContentSwallow payload := by
  have hparse : parseJson (stripNoise ((noise ++ payload).data)) =
      parseJson (stripNoise payload.data) := by
    rw [String.data_append]
    exact stripNoise_append noise.data payload.data hn hp hw
  constructor
  · unfold decodeContent
    rw [hparse]
  · unfold decodeContentSwallow
    rw [hparse]

/-- Witness for the amended C7: textual noise prepended to the hello/world
payload. -/
theorem c7_witness :
    decodeContent ("noise " ++ payloadHW) = decodeContent payloadHW ∧
    decodeContentSwallow ("noise " ++ payloadHW) =
      decodeContentSwallow payloadHW := by
  exact c7_noise_tolerance "noise " payloadHW (by decide) (by rfl)
    (Or.inl ⟨'n', by decide, by decide⟩)
